import Mathlib

/-!
Shallow embedding of the glTF model-loading core of
`src/base/VulkanglTFModel.hpp` (C++ namespace `vkglTF`), written to check the
specification's claims about scene-graph flattening, morph-target packing,
mesh classification, animation-channel binding, and vertex/index emission.

Modelling conventions:
* `float`/`double` arithmetic is modelled over `ℚ` (exact arithmetic);
  `glm::normalize` involves an irrational square root and is therefore
  abstracted as an arbitrary function `nrm : Vec3 → Vec3` threaded through
  the embedding (no checked claim depends on its value — the source's
  conditional guarding it is kept verbatim);
* `std::vector` is `List`; typed accessor data arrives pre-decoded as lists
  (the raw byte reinterpretation done by tinygltf is memory layout and is
  outside a shallow embedding); an accessor's declared `count` is the length
  of its decoded list;
* `uint32_t` truncation at the source's casts and arithmetic is kept
  explicit through `u32`;
* materials are referenced by index (`materials[primitive.material]` in the
  source stores a reference into the shared material table).
-/

namespace VkGltf

/-- glm::vec3 over exact rationals. -/
structure Vec3 where
  x : ℚ
  y : ℚ
  z : ℚ
deriving DecidableEq, Repr

/-- glm::vec4 over exact rationals. -/
structure Vec4 where
  x : ℚ
  y : ℚ
  z : ℚ
  w : ℚ
deriving DecidableEq, Repr

/-- glm::mat4, column major: `c0 c1 c2 c3` are the four columns; the
translation of a TRS matrix lives in `c3`. -/
structure Mat4 where
  c0 : Vec4
  c1 : Vec4
  c2 : Vec4
  c3 : Vec4
deriving DecidableEq, Repr

/-- glm::quat as stored in memory (and as read by `glm::make_quat` from the
glTF rotation array): components in x, y, z, w order. -/
structure Quat where
  x : ℚ
  y : ℚ
  z : ℚ
  w : ℚ
deriving DecidableEq, Repr

def Vec3.zero : Vec3 := ⟨0, 0, 0⟩

/-- Componentwise scaling, `v *= k` on a glm::vec3. -/
def Vec3.scale (v : Vec3) (k : ℚ) : Vec3 := ⟨v.x * k, v.y * k, v.z * k⟩

/-- Matrix-vector product `m * v` (glm column-major convention). -/
def Mat4.mulVec4 (m : Mat4) (v : Vec4) : Vec4 :=
  ⟨m.c0.x * v.x + m.c1.x * v.y + m.c2.x * v.z + m.c3.x * v.w,
   m.c0.y * v.x + m.c1.y * v.y + m.c2.y * v.z + m.c3.y * v.w,
   m.c0.z * v.x + m.c1.z * v.y + m.c2.z * v.z + m.c3.z * v.w,
   m.c0.w * v.x + m.c1.w * v.y + m.c2.w * v.z + m.c3.w * v.w⟩

/-- Matrix product `a * b` (columns of the product are `a` applied to the
columns of `b`). -/
def Mat4.mul (a b : Mat4) : Mat4 :=
  ⟨a.mulVec4 b.c0, a.mulVec4 b.c1, a.mulVec4 b.c2, a.mulVec4 b.c3⟩

/-- glm::mat4(1.0f). -/
def mat4Id : Mat4 :=
  ⟨⟨1, 0, 0, 0⟩, ⟨0, 1, 0, 0⟩, ⟨0, 0, 1, 0⟩, ⟨0, 0, 0, 1⟩⟩

/-- `glm::vec3(m * glm::vec4(v, 1.0f))`: transform a point (w = 1, so the
fourth column — a translation if present — is added) and truncate to xyz.
This is the exact form used on morph deltas and vertex positions. -/
def Mat4.mulPoint (m : Mat4) (v : Vec3) : Vec3 :=
  let r := m.mulVec4 ⟨v.x, v.y, v.z, 1⟩
  ⟨r.x, r.y, r.z⟩

/-- `glm::mat3(m) * v`: apply only the upper-left 3×3 linear part (used on
vertex normals). -/
def Mat4.mulDir3 (m : Mat4) (v : Vec3) : Vec3 :=
  ⟨m.c0.x * v.x + m.c1.x * v.y + m.c2.x * v.z,
   m.c0.y * v.x + m.c1.y * v.y + m.c2.y * v.z,
   m.c0.z * v.x + m.c1.z * v.y + m.c2.z * v.z⟩

/-- `glm::translate(m, t)`: same columns, with the fourth replaced by
`m.c0*t.x + m.c1*t.y + m.c2*t.z + m.c3`. -/
def translateGlm (m : Mat4) (t : Vec3) : Mat4 :=
  ⟨m.c0, m.c1, m.c2,
   ⟨m.c0.x * t.x + m.c1.x * t.y + m.c2.x * t.z + m.c3.x,
    m.c0.y * t.x + m.c1.y * t.y + m.c2.y * t.z + m.c3.y,
    m.c0.z * t.x + m.c1.z * t.y + m.c2.z * t.z + m.c3.z,
    m.c0.w * t.x + m.c1.w * t.y + m.c2.w * t.z + m.c3.w⟩⟩

/-- `glm::scale(m, s)`: the first three columns scaled componentwise, the
fourth kept. -/
def scaleGlm (m : Mat4) (s : Vec3) : Mat4 :=
  ⟨⟨m.c0.x * s.x, m.c0.y * s.x, m.c0.z * s.x, m.c0.w * s.x⟩,
   ⟨m.c1.x * s.y, m.c1.y * s.y, m.c1.z * s.y, m.c1.w * s.y⟩,
   ⟨m.c2.x * s.z, m.c2.y * s.z, m.c2.z * s.z, m.c2.w * s.z⟩,
   m.c3⟩

/-- `glm::mat4(glm::quat q)` (mat4_cast): the standard quaternion rotation
matrix promoted to 4×4 with identity fourth row and column. -/
def quatToMat4 (q : Quat) : Mat4 :=
  ⟨⟨1 - 2 * (q.y * q.y + q.z * q.z), 2 * (q.x * q.y + q.w * q.z),
    2 * (q.x * q.z - q.w * q.y), 0⟩,
   ⟨2 * (q.x * q.y - q.w * q.z), 1 - 2 * (q.x * q.x + q.z * q.z),
    2 * (q.y * q.z + q.w * q.x), 0⟩,
   ⟨2 * (q.x * q.z + q.w * q.y), 2 * (q.y * q.z - q.w * q.x),
    1 - 2 * (q.x * q.x + q.y * q.y), 0⟩,
   ⟨0, 0, 0, 1⟩⟩

/-- Local node matrices, `VulkanglTFModel.hpp` lines 426-449: the TRS local
matrix and the "rotate/scale only" local matrix used for morph deltas.
A missing glTF field (wrong element count in the source's size checks) keeps
the documented default.  When the node carries an explicit 16-element matrix
the source copies it verbatim into BOTH matrices; otherwise it composes
`translate * rotation * scale` for TRS and `mat4(1) * rotation * scale`
for RS. -/
def localMatrices (tOpt : Option Vec3) (rOpt : Option Quat) (sOpt : Option Vec3)
    (mOpt : Option Mat4) : Mat4 × Mat4 :=
  let translation := tOpt.getD ⟨0, 0, 0⟩
  let rot := match rOpt with
    | some q => quatToMat4 q
    | none => mat4Id
  let scl := sOpt.getD ⟨1, 1, 1⟩
  match mOpt with
  | some m => (m, m)
  | none =>
    (Mat4.mul (Mat4.mul (translateGlm mat4Id translation) rot) (scaleGlm mat4Id scl),
     Mat4.mul (Mat4.mul mat4Id rot) (scaleGlm mat4Id scl))

/-- `#define MAX_WEIGHTS 8`. -/
def MAX_WEIGHTS : Nat := 8

/-- `static_cast<uint32_t>` / storage in a `uint32_t`. -/
def u32 (n : Nat) : Nat := n % 2 ^ 32

/-- `sizeof(Model::Vertex)`: three tightly packed glm::vec3 of 32-bit
floats, 36 bytes. -/
def sizeofVertex : Nat := 36

/-- One morph target of a glTF primitive: the optional POSITION / NORMAL /
TANGENT per-vertex delta streams (each a decoded list of vec3; the
accessor's declared count is the list length). -/
structure MorphTarget where
  position : Option (List Vec3)
  normal : Option (List Vec3)
  tangent : Option (List Vec3)
deriving DecidableEq, Repr

/-- A primitive's index accessor: the glTF component type tag
(5121 = unsigned byte, 5123 = unsigned short, 5125 = unsigned int, other
values unsupported) and the decoded index values. -/
structure IdxAccessor where
  componentType : Nat
  values : List Nat
deriving DecidableEq, Repr

/-- A tinygltf primitive as consumed by `loadNode`: `indices = none` models
`primitive.indices < 0`; POSITION is required by the source's assert and is
therefore a plain field; NORMAL is optional. -/
structure GPrimitive where
  indices : Option IdxAccessor
  positions : List Vec3
  normals : Option (List Vec3)
  material : Nat
  targets : List MorphTarget
deriving DecidableEq, Repr

/-- A tinygltf mesh: the initial morph weights and the primitive list. -/
structure GMesh where
  weights : List ℚ
  primitives : List GPrimitive
deriving DecidableEq, Repr

/-- A tinygltf animation channel. -/
structure GChannel where
  targetNode : Nat
  targetPath : String
  sampler : Nat
deriving DecidableEq, Repr

/-- A tinygltf animation sampler: indices of the input (keyframe time) and
output (keyframe value) accessors plus the interpolation string. -/
structure GSampler where
  input : Nat
  output : Nat
  interpolation : String
deriving DecidableEq, Repr

/-- A tinygltf animation. -/
structure GAnimation where
  channels : List GChannel
  samplers : List GSampler
deriving DecidableEq, Repr

/-- vkglTF::Primitive.  The source stores `Material &material`, a reference
to `materials[primitive.material]`; the stable index is kept here. -/
structure Primitive where
  firstIndex : Nat
  indexCount : Nat
  material : Nat
deriving DecidableEq, Repr

/-- vkglTF::MorphPushConst.  `weights` is `float[MAX_WEIGHTS]`, modelled as
a list of fixed length 8. -/
structure MorphPushConst where
  bufferOffset : Nat
  normalOffset : Nat
  tangentOffset : Nat
  vertexStride : Nat
  weights : List ℚ
deriving DecidableEq, Repr

/-- vkglTF::Mesh::MorphInterpolation. -/
inductive MorphInterpolation where
  | LINEAR
  | STEP
  | CUBICSPLINE
deriving DecidableEq, Repr

/-- vkglTF::Mesh. -/
structure Mesh where
  isMorphTarget : Bool
  sampler : Nat
  input : Nat
  output : Nat
  interpolation : MorphInterpolation
  weightsInit : List ℚ
  weightsTime : List ℚ
  weightsData : List ℚ
  morphVertexOffset : Nat
  morphPushConst : MorphPushConst
  primitives : List Primitive
  currentIndex : Nat
deriving DecidableEq, Repr

/-- The value of `Mesh{}` (C++ value initialization): zeroes, empty
vectors, the first enumerator for the interpolation enum, and a zeroed
`float[MAX_WEIGHTS]` array. -/
def Mesh.init : Mesh :=
  { isMorphTarget := false
    sampler := 0
    input := 0
    output := 0
    interpolation := .LINEAR
    weightsInit := []
    weightsTime := []
    weightsData := []
    morphVertexOffset := 0
    morphPushConst := ⟨0, 0, 0, 0, List.replicate MAX_WEIGHTS 0⟩
    primitives := []
    currentIndex := 0 }

/-- Model::Vertex. -/
structure Vertex where
  pos : Vec3
  normal : Vec3
  tangent : Vec3
deriving DecidableEq, Repr

/-- The mutable state threaded by reference through `loadNode`: the four
flattened sequences, the shared morph pack array, the two mesh collections,
the running animation duration bound, and the error reports written to
std::cerr. -/
structure LoadState where
  vertexBufferMorph : List Vertex
  indexBufferMorph : List Nat
  vertexBufferNormal : List Vertex
  indexBufferNormal : List Nat
  morphVertexData : List ℚ
  meshesMorph : List Mesh
  meshesNormal : List Mesh
  animationMaxTime : ℚ
  errors : List String
deriving DecidableEq, Repr

/-- An empty `Model` before any node is visited. -/
def LoadState.empty : LoadState := ⟨[], [], [], [], [], [], [], 0, []⟩

/-- One packed vector of the morph run, `VulkanglTFModel.hpp` lines
628-642: transform the raw delta by the RS matrix as a POINT (w = 1),
globally scale it if `j` indexes a position slot, otherwise renormalize it
when nonzero, then flip the sign of Y and emit the three components.
`nrm` abstracts `glm::normalize`. -/
def packVec (nrm : Vec3 → Vec3) (rs : Mat4) (globalscale : ℚ)
    (normalOffset : Nat) (j : Nat) (stream : List Vec3) (i : Nat) : List ℚ :=
  let t0 := rs.mulPoint (stream.getD i Vec3.zero)
  let t1 :=
    if j < normalOffset then t0.scale globalscale
    else if t0.x ≠ 0 ∨ t0.y ≠ 0 ∨ t0.z ≠ 0 then nrm t0
    else t0
  [t1.x, -t1.y, t1.z]

/-- The inner `j` loop over `morphBuffer` for one vertex index `i`
(lines 629-643). -/
def packRun (nrm : Vec3 → Vec3) (rs : Mat4) (globalscale : ℚ)
    (normalOffset : Nat) (i : Nat) : Nat → List (List Vec3) → List ℚ
  | _, [] => []
  | j, s :: rest =>
      packVec nrm rs globalscale normalOffset j s i ++
        packRun nrm rs globalscale normalOffset i (j + 1) rest

/-- The morph-target packer, `VulkanglTFModel.hpp` lines 591-644: gather the
POSITION, then NORMAL, then TANGENT delta streams of the primitive's targets
into `morphBuffer` (recording `normalOffset`, `tangentOffset`,
`vertexStride` as the running buffer sizes and `bufferOffset` as the current
size of the shared pack array), take the vertex count from the POSITION
target accessors (the last one found wins), and append the packed run of
every vertex to the shared array.  Returns the grown shared array and the
updated push-constant record (only the four offset/stride fields are
written; the weights array is untouched). -/
def packMorph (nrm : Vec3 → Vec3) (rs : Mat4) (globalscale : ℚ)
    (targets : List MorphTarget) (morphData : List ℚ)
    (pc : MorphPushConst) : List ℚ × MorphPushConst :=
  let posStreams := targets.filterMap (·.position)
  let morphVertexCount := match posStreams.getLast? with
    | some s => u32 s.length
    | none => 0
  let normalOffset := u32 posStreams.length
  let bufPN := posStreams ++ targets.filterMap (·.normal)
  let tangentOffset := u32 bufPN.length
  let buf := bufPN ++ targets.filterMap (·.tangent)
  let vertexStride := u32 buf.length
  let bufferOffset := u32 morphData.length
  let packed := (List.range morphVertexCount).flatMap
    (fun i => packRun nrm rs globalscale normalOffset i 0 buf)
  (morphData ++ packed,
   { pc with
      bufferOffset := bufferOffset
      normalOffset := normalOffset
      tangentOffset := tangentOffset
      vertexStride := vertexStride })

/-- One flattened vertex, `VulkanglTFModel.hpp` lines 647-660: position
transformed by the world TRS matrix as a point and globally scaled, normal
transformed by the 3×3 part and normalized (`nrm` abstracts
`glm::normalize`, applied unconditionally here as in the source), tangent
always zero, and the Y of both flipped for the Vulkan coordinate system. -/
def buildVertex (nrm : Vec3 → Vec3) (trs : Mat4) (globalscale : ℚ)
    (p : Vec3) (n : Vec3) : Vertex :=
  let pos := (trs.mulPoint p).scale globalscale
  let nr := nrm (trs.mulDir3 n)
  { pos := ⟨pos.x, -pos.y, pos.z⟩
    normal := ⟨nr.x, -nr.y, nr.z⟩
    tangent := Vec3.zero }

/-- The vertex loop of one primitive (lines 647-667): `posAccessor.count`
vertices, reading the NORMAL stream when present and a zero vector
otherwise. -/
def primVertices (nrm : Vec3 → Vec3) (trs : Mat4) (globalscale : ℚ)
    (prim : GPrimitive) : List Vertex :=
  (List.range prim.positions.length).map (fun v =>
    buildVertex nrm trs globalscale (prim.positions.getD v Vec3.zero)
      (match prim.normals with
        | some ns => ns.getD v Vec3.zero
        | none => Vec3.zero))

/-- Result of processing (a prefix of) a mesh's primitive list: the updated
shared state, the mesh record under construction, and whether the
unsupported-index-component error path was taken (in the source: report to
std::cerr and `return` from `loadNode`, abandoning the remaining
primitives of this node). -/
structure MeshStep where
  st : LoadState
  mesh : Mesh
  err : Bool
deriving DecidableEq, Repr

/-- One iteration of the primitive loop, `VulkanglTFModel.hpp` lines
550-721.  `primitive.indices < 0` skips the iteration.  Otherwise: push a
`Primitive` record whose `firstIndex` is the current index-sequence length
(its `indexCount`, set to 0 at creation in the source, is overwritten to
`accessor.count` at line 676 before anything reads it — the record is built
with its final value here); record `vertexStart` and the per-mesh
`morphVertexOffset = vertexStart * sizeof(Vertex)`; pack the morph targets
when the mesh is a morph target; append this primitive's transformed
vertices; then emit indices — biased by `vertexStart` for static meshes,
raw for morph meshes — or, for an unsupported index component type, report
an error and stop. -/
def processPrim (nrm : Vec3 → Vec3) (trs rs : Mat4) (globalscale : ℚ)
    (st : LoadState) (mesh : Mesh) (prim : GPrimitive) : MeshStep :=
  match prim.indices with
  | none => ⟨st, mesh, false⟩
  | some acc =>
    let isM := mesh.isMorphTarget
    let firstIndex :=
      u32 (if isM then st.indexBufferMorph.length else st.indexBufferNormal.length)
    let mesh1 := { mesh with
      primitives := mesh.primitives ++
        [(⟨firstIndex, u32 acc.values.length, prim.material⟩ : Primitive)] }
    let vertexStart :=
      u32 (if isM then st.vertexBufferMorph.length else st.vertexBufferNormal.length)
    let mesh2 := { mesh1 with morphVertexOffset := u32 (vertexStart * sizeofVertex) }
    let packed :=
      if isM then packMorph nrm rs globalscale prim.targets st.morphVertexData mesh2.morphPushConst
      else (st.morphVertexData, mesh2.morphPushConst)
    let mesh3 := { mesh2 with morphPushConst := packed.2 }
    let st1 := { st with morphVertexData := packed.1 }
    let verts := primVertices nrm trs globalscale prim
    let st2 :=
      if isM then { st1 with vertexBufferMorph := st1.vertexBufferMorph ++ verts }
      else { st1 with vertexBufferNormal := st1.vertexBufferNormal ++ verts }
    if acc.componentType = 5125 ∨ acc.componentType = 5123 ∨ acc.componentType = 5121 then
      let st3 :=
        if isM then
          { st2 with indexBufferMorph := st2.indexBufferMorph ++ acc.values.map u32 }
        else
          { st2 with indexBufferNormal :=
              st2.indexBufferNormal ++ acc.values.map (fun v => u32 (v + vertexStart)) }
      ⟨st3, mesh3, false⟩
    else
      ⟨{ st2 with errors := st2.errors ++ ["Index component type not supported"] },
       mesh3, true⟩

/-- The primitive loop: iterate in order, stopping (with the partial state
kept) as soon as an iteration takes the error path. -/
def processPrims (nrm : Vec3 → Vec3) (trs rs : Mat4) (globalscale : ℚ) :
    List GPrimitive → LoadState → Mesh → MeshStep
  | [], st, mesh => ⟨st, mesh, false⟩
  | p :: rest, st, mesh =>
    let r := processPrim nrm trs rs globalscale st mesh p
    if r.err then r else processPrims nrm trs rs globalscale rest r.st r.mesh

/-- Interpolation-mode resolution, lines 486-492: exact string match with
LINEAR as the glTF default. -/
def parseInterp (s : String) : MorphInterpolation :=
  if s = "STEP" then .STEP
  else if s = "CUBICSPLINE" then .CUBICSPLINE
  else .LINEAR

/-- The inner channel scan of one animation: the first channel whose target
node is this node and whose target path is "weights". -/
def findChannel (nodeIndex : Nat) (anim : GAnimation) : Option GChannel :=
  anim.channels.find? (fun c => c.targetNode == nodeIndex && c.targetPath == "weights")

/-- The animation scan of lines 479-499: animations in order, each
animation's channels in order, first match wins (the two `break`s). -/
def findWeightsBinding (nodeIndex : Nat) : List GAnimation → Option (GAnimation × GChannel)
  | [] => none
  | a :: rest =>
    match findChannel nodeIndex a with
    | some c => some (a, c)
    | none => findWeightsBinding nodeIndex rest

/-- The default `GSampler` used to model C++ vector indexing
`animation.samplers[channel.sampler]` (out of range is undefined behaviour
in the source; the claims never exercise it). -/
def defaultSampler : GSampler := ⟨0, 0, ""⟩

/-- Classification and animation binding of one mesh, `VulkanglTFModel.hpp`
lines 466-548: a mesh is a morph target iff its initial weight list is
nonempty.  For a morph mesh, resolve the animation binding; when a binding
exists, copy the keyframe time/value accessor contents (`floatAccessors` is
the accessor table restricted to decoded float streams) and raise the
global animation duration bound to the last keyframe time (`.back()` on the
time vector — undefined in the source when that vector is empty, modelled
with a default of 0); when none exists, leave the two sequences empty.
Initial weights are truncated to MAX_WEIGHTS.  For a static mesh, zero the
four push-constant offset fields.  Returns the seeded mesh record and the
updated shared state. -/
def seedMesh (anims : List GAnimation) (floatAccessors : List (List ℚ))
    (nodeIndex : Nat) (gmesh : GMesh) (st : LoadState) :
    Mesh × LoadState :=
  let isMorph := !gmesh.weights.isEmpty
  let mesh0 := { Mesh.init with isMorphTarget := isMorph }
  if isMorph then
    match findWeightsBinding nodeIndex anims with
    | some (a, c) =>
      let smp := a.samplers.getD c.sampler defaultSampler
      let wt := floatAccessors.getD smp.input []
      let wd := floatAccessors.getD smp.output []
      ({ mesh0 with
          sampler := c.sampler
          input := smp.input
          output := smp.output
          interpolation := parseInterp smp.interpolation
          weightsInit := gmesh.weights.take MAX_WEIGHTS
          weightsTime := wt
          weightsData := wd },
       { st with animationMaxTime := max st.animationMaxTime (wt.getLastD 0) })
    | none =>
      ({ mesh0 with
          weightsInit := gmesh.weights.take MAX_WEIGHTS
          weightsTime := []
          weightsData := [] }, st)
  else
    ({ mesh0 with
        morphPushConst := ⟨0, 0, 0, 0, mesh0.morphPushConst.weights⟩ }, st)

/-- Processing of one mesh-bearing node, `VulkanglTFModel.hpp` lines
466-721: seed the mesh (classification, binding, initial weights), run the
primitive loop, and append the finished mesh to the matching collection (in
the source the mesh is pushed into its collection first and mutated in
place through a reference, also when the loop stops on the error path; the
final state is identical). -/
def processMeshNode (nrm : Vec3 → Vec3) (anims : List GAnimation)
    (floatAccessors : List (List ℚ)) (trs rs : Mat4) (globalscale : ℚ)
    (nodeIndex : Nat) (gmesh : GMesh) (st : LoadState) : LoadState :=
  let seeded := seedMesh anims floatAccessors nodeIndex gmesh st
  let r := processPrims nrm trs rs globalscale gmesh.primitives seeded.2 seeded.1
  if !gmesh.weights.isEmpty then
    { r.st with meshesMorph := r.st.meshesMorph ++ [r.mesh] }
  else { r.st with meshesNormal := r.st.meshesNormal ++ [r.mesh] }

/-- A scene-graph node.  The source addresses children through
`model.nodes[childIndex]`; the acyclic glTF node forest is embedded
directly as a tree (`nodeIndex` is kept because animation channels target
nodes by index).  `mesh = none` models `node.mesh < 0`. -/
inductive GNode where
  | mk (nodeIndex : Nat) (translation : Option Vec3) (rotation : Option Quat)
      (scl : Option Vec3) (matrix : Option Mat4) (mesh : Option GMesh)
      (children : List GNode)

mutual
/-- `Model::loadNode`, lines 420-722: compute the local matrix pair,
compose only the TRS matrix with the parent chain (the RS matrix is NOT
composed — the source's documented limitation), recurse into the children
first, then process this node's mesh if it has one. -/
def loadNode (nrm : Vec3 → Vec3) (anims : List GAnimation)
    (floatAccessors : List (List ℚ)) (globalscale : ℚ) (parentMatrix : Mat4) :
    GNode → LoadState → LoadState
  | .mk nodeIndex t r s m meshOpt children, st =>
    let mats := localMatrices t r s m
    let trs := Mat4.mul parentMatrix mats.1
    let st1 := loadNodeList nrm anims floatAccessors globalscale trs children st
    match meshOpt with
    | none => st1
    | some gmesh =>
      processMeshNode nrm anims floatAccessors trs mats.2 globalscale nodeIndex gmesh st1

/-- The child loop of `loadNode` (lines 455-459), in order. -/
def loadNodeList (nrm : Vec3 → Vec3) (anims : List GAnimation)
    (floatAccessors : List (List ℚ)) (globalscale : ℚ) (parentMatrix : Mat4) :
    List GNode → LoadState → LoadState
  | [], st => st
  | n :: rest, st =>
    loadNodeList nrm anims floatAccessors globalscale parentMatrix rest
      (loadNode nrm anims floatAccessors globalscale parentMatrix n st)
end

/-! Equation lemmas for `processPrim`, one per control path of the
primitive-loop body. -/

theorem processPrim_none (nrm : Vec3 → Vec3) (trs rs : Mat4) (globalscale : ℚ)
    (st : LoadState) (mesh : Mesh) (prim : GPrimitive)
    (h : prim.indices = none) :
    processPrim nrm trs rs globalscale st mesh prim = ⟨st, mesh, false⟩ := by
  simp [processPrim, h]

theorem processPrim_static_ok (nrm : Vec3 → Vec3) (trs rs : Mat4)
    (globalscale : ℚ) (st : LoadState) (mesh : Mesh) (prim : GPrimitive)
    (acc : IdxAccessor) (hM : mesh.isMorphTarget = false)
    (h : prim.indices = some acc)
    (hsup : acc.componentType = 5125 ∨ acc.componentType = 5123 ∨ acc.componentType = 5121) :
    processPrim nrm trs rs globalscale st mesh prim =
      ⟨{ st with
          vertexBufferNormal := st.vertexBufferNormal ++ primVertices nrm trs globalscale prim
          indexBufferNormal := st.indexBufferNormal ++
            acc.values.map (fun v => u32 (v + u32 st.vertexBufferNormal.length)) },
       { mesh with
          primitives := mesh.primitives ++
            [⟨u32 st.indexBufferNormal.length, u32 acc.values.length, prim.material⟩]
          morphVertexOffset := u32 (u32 st.vertexBufferNormal.length * sizeofVertex) },
       false⟩ := by
  simp [processPrim, h, hM, hsup]

theorem processPrim_static_err (nrm : Vec3 → Vec3) (trs rs : Mat4)
    (globalscale : ℚ) (st : LoadState) (mesh : Mesh) (prim : GPrimitive)
    (acc : IdxAccessor) (hM : mesh.isMorphTarget = false)
    (h : prim.indices = some acc)
    (hbad : ¬(acc.componentType = 5125 ∨ acc.componentType = 5123 ∨ acc.componentType = 5121)) :
    processPrim nrm trs rs globalscale st mesh prim =
      ⟨{ st with
          vertexBufferNormal := st.vertexBufferNormal ++ primVertices nrm trs globalscale prim
          errors := st.errors ++ ["Index component type not supported"] },
       { mesh with
          primitives := mesh.primitives ++
            [⟨u32 st.indexBufferNormal.length, u32 acc.values.length, prim.material⟩]
          morphVertexOffset := u32 (u32 st.vertexBufferNormal.length * sizeofVertex) },
       true⟩ := by
  simp [processPrim, h, hM, hbad]

theorem processPrim_morph_ok (nrm : Vec3 → Vec3) (trs rs : Mat4)
    (globalscale : ℚ) (st : LoadState) (mesh : Mesh) (prim : GPrimitive)
    (acc : IdxAccessor) (hM : mesh.isMorphTarget = true)
    (h : prim.indices = some acc)
    (hsup : acc.componentType = 5125 ∨ acc.componentType = 5123 ∨ acc.componentType = 5121) :
    processPrim nrm trs rs globalscale st mesh prim =
      ⟨{ st with
          vertexBufferMorph := st.vertexBufferMorph ++ primVertices nrm trs globalscale prim
          indexBufferMorph := st.indexBufferMorph ++ acc.values.map u32
          morphVertexData :=
            (packMorph nrm rs globalscale prim.targets st.morphVertexData
              mesh.morphPushConst).1 },
       { mesh with
          primitives := mesh.primitives ++
            [⟨u32 st.indexBufferMorph.length, u32 acc.values.length, prim.material⟩]
          morphVertexOffset := u32 (u32 st.vertexBufferMorph.length * sizeofVertex)
          morphPushConst :=
            (packMorph nrm rs globalscale prim.targets st.morphVertexData
              mesh.morphPushConst).2 },
       false⟩ := by
  simp [processPrim, h, hM, hsup]

theorem processPrim_morph_err (nrm : Vec3 → Vec3) (trs rs : Mat4)
    (globalscale : ℚ) (st : LoadState) (mesh : Mesh) (prim : GPrimitive)
    (acc : IdxAccessor) (hM : mesh.isMorphTarget = true)
    (h : prim.indices = some acc)
    (hbad : ¬(acc.componentType = 5125 ∨ acc.componentType = 5123 ∨ acc.componentType = 5121)) :
    processPrim nrm trs rs globalscale st mesh prim =
      ⟨{ st with
          vertexBufferMorph := st.vertexBufferMorph ++ primVertices nrm trs globalscale prim
          morphVertexData :=
            (packMorph nrm rs globalscale prim.targets st.morphVertexData
              mesh.morphPushConst).1
          errors := st.errors ++ ["Index component type not supported"] },
       { mesh with
          primitives := mesh.primitives ++
            [⟨u32 st.indexBufferMorph.length, u32 acc.values.length, prim.material⟩]
          morphVertexOffset := u32 (u32 st.vertexBufferMorph.length * sizeofVertex)
          morphPushConst :=
            (packMorph nrm rs globalscale prim.targets st.morphVertexData
              mesh.morphPushConst).2 },
       true⟩ := by
  simp [processPrim, h, hM, hbad]

theorem processPrims_nil (nrm : Vec3 → Vec3) (trs rs : Mat4) (globalscale : ℚ)
    (st : LoadState) (mesh : Mesh) :
    processPrims nrm trs rs globalscale [] st mesh = ⟨st, mesh, false⟩ := rfl

theorem processPrims_cons (nrm : Vec3 → Vec3) (trs rs : Mat4) (globalscale : ℚ)
    (p : GPrimitive) (rest : List GPrimitive) (st : LoadState) (mesh : Mesh) :
    processPrims nrm trs rs globalscale (p :: rest) st mesh =
      if (processPrim nrm trs rs globalscale st mesh p).err then
        processPrim nrm trs rs globalscale st mesh p
      else
        processPrims nrm trs rs globalscale rest
          (processPrim nrm trs rs globalscale st mesh p).st
          (processPrim nrm trs rs globalscale st mesh p).mesh := by
  simp [processPrims]

/-- The loop body never touches the mesh collections or the animation
duration bound, and never writes the constructed mesh's classification,
binding, weight-list fields, or the push-constant weights array. -/
theorem processPrim_preserved (nrm : Vec3 → Vec3) (trs rs : Mat4)
    (globalscale : ℚ) (st : LoadState) (mesh : Mesh) (prim : GPrimitive) :
    ((processPrim nrm trs rs globalscale st mesh prim).st.meshesMorph = st.meshesMorph ∧
     (processPrim nrm trs rs globalscale st mesh prim).st.meshesNormal = st.meshesNormal ∧
     (processPrim nrm trs rs globalscale st mesh prim).st.animationMaxTime = st.animationMaxTime) ∧
    ((processPrim nrm trs rs globalscale st mesh prim).mesh.isMorphTarget = mesh.isMorphTarget ∧
     (processPrim nrm trs rs globalscale st mesh prim).mesh.sampler = mesh.sampler ∧
     (processPrim nrm trs rs globalscale st mesh prim).mesh.input = mesh.input ∧
     (processPrim nrm trs rs globalscale st mesh prim).mesh.output = mesh.output ∧
     (processPrim nrm trs rs globalscale st mesh prim).mesh.interpolation = mesh.interpolation) ∧
    ((processPrim nrm trs rs globalscale st mesh prim).mesh.weightsInit = mesh.weightsInit ∧
     (processPrim nrm trs rs globalscale st mesh prim).mesh.weightsTime = mesh.weightsTime ∧
     (processPrim nrm trs rs globalscale st mesh prim).mesh.weightsData = mesh.weightsData ∧
     (processPrim nrm trs rs globalscale st mesh prim).mesh.morphPushConst.weights =
       mesh.morphPushConst.weights) := by
  rcases hp : prim.indices with _ | acc
  · simp [processPrim, hp]
  · by_cases hsup : acc.componentType = 5125 ∨ acc.componentType = 5123 ∨ acc.componentType = 5121 <;>
      cases hM : mesh.isMorphTarget <;>
      simp [processPrim, hp, hsup, hM, packMorph]

/-- `processPrim_preserved` lifted over the whole primitive loop. -/
theorem processPrims_preserved (nrm : Vec3 → Vec3) (trs rs : Mat4)
    (globalscale : ℚ) (prims : List GPrimitive) : ∀ (st : LoadState) (mesh : Mesh),
    ((processPrims nrm trs rs globalscale prims st mesh).st.meshesMorph = st.meshesMorph ∧
     (processPrims nrm trs rs globalscale prims st mesh).st.meshesNormal = st.meshesNormal ∧
     (processPrims nrm trs rs globalscale prims st mesh).st.animationMaxTime = st.animationMaxTime) ∧
    ((processPrims nrm trs rs globalscale prims st mesh).mesh.isMorphTarget = mesh.isMorphTarget ∧
     (processPrims nrm trs rs globalscale prims st mesh).mesh.sampler = mesh.sampler ∧
     (processPrims nrm trs rs globalscale prims st mesh).mesh.input = mesh.input ∧
     (processPrims nrm trs rs globalscale prims st mesh).mesh.output = mesh.output ∧
     (processPrims nrm trs rs globalscale prims st mesh).mesh.interpolation = mesh.interpolation) ∧
    ((processPrims nrm trs rs globalscale prims st mesh).mesh.weightsInit = mesh.weightsInit ∧
     (processPrims nrm trs rs globalscale prims st mesh).mesh.weightsTime = mesh.weightsTime ∧
     (processPrims nrm trs rs globalscale prims st mesh).mesh.weightsData = mesh.weightsData ∧
     (processPrims nrm trs rs globalscale prims st mesh).mesh.morphPushConst.weights =
       mesh.morphPushConst.weights) := by
  induction prims with
  | nil => intro st mesh; simp [processPrims_nil]
  | cons p rest ih =>
    intro st mesh
    rw [processPrims_cons]
    have h1 := processPrim_preserved nrm trs rs globalscale st mesh p
    split
    · exact h1
    · have h2 := ih (processPrim nrm trs rs globalscale st mesh p).st
        (processPrim nrm trs rs globalscale st mesh p).mesh
      refine ⟨⟨?_, ?_, ?_⟩, ⟨?_, ?_, ?_, ?_, ?_⟩, ⟨?_, ?_, ?_, ?_⟩⟩ <;>
        simp only [h2.1.1, h2.1.2.1, h2.1.2.2, h2.2.1.1, h2.2.1.2.1, h2.2.1.2.2.1,
          h2.2.1.2.2.2.1, h2.2.1.2.2.2.2, h2.2.2.1, h2.2.2.2.1, h2.2.2.2.2.1,
          h2.2.2.2.2.2, h1.1.1, h1.1.2.1, h1.1.2.2, h1.2.1.1, h1.2.1.2.1,
          h1.2.1.2.2.1, h1.2.1.2.2.2.1, h1.2.1.2.2.2.2, h1.2.2.1, h1.2.2.2.1,
          h1.2.2.2.2.1, h1.2.2.2.2.2]

/-- For a static mesh the loop body also leaves the whole push-constant
record alone (the packer only runs on morph meshes). -/
theorem processPrim_static_pushConst (nrm : Vec3 → Vec3) (trs rs : Mat4)
    (globalscale : ℚ) (st : LoadState) (mesh : Mesh) (prim : GPrimitive)
    (hM : mesh.isMorphTarget = false) :
    (processPrim nrm trs rs globalscale st mesh prim).mesh.morphPushConst =
      mesh.morphPushConst := by
  rcases hp : prim.indices with _ | acc
  · simp [processPrim, hp]
  · by_cases hsup : acc.componentType = 5125 ∨ acc.componentType = 5123 ∨ acc.componentType = 5121 <;>
      simp [processPrim, hp, hsup, hM]

/-- `processPrim_static_pushConst` lifted over the loop. -/
theorem processPrims_static_pushConst (nrm : Vec3 → Vec3) (trs rs : Mat4)
    (globalscale : ℚ) (prims : List GPrimitive) : ∀ (st : LoadState) (mesh : Mesh),
    mesh.isMorphTarget = false →
    (processPrims nrm trs rs globalscale prims st mesh).mesh.morphPushConst =
      mesh.morphPushConst := by
  induction prims with
  | nil => intro st mesh _; simp [processPrims_nil]
  | cons p rest ih =>
    intro st mesh hM
    rw [processPrims_cons]
    split
    · exact processPrim_static_pushConst nrm trs rs globalscale st mesh p hM
    · rw [ih _ _ (by
        rw [(processPrim_preserved nrm trs rs globalscale st mesh p).2.1.1, hM])]
      exact processPrim_static_pushConst nrm trs rs globalscale st mesh p hM

/-! Characterizations of `seedMesh` by classification and binding
outcome. -/

theorem seedMesh_morph_unbound (anims : List GAnimation)
    (faccs : List (List ℚ)) (nodeIndex : Nat) (gmesh : GMesh) (st : LoadState)
    (hw : gmesh.weights ≠ [])
    (hfind : findWeightsBinding nodeIndex anims = none) :
    seedMesh anims faccs nodeIndex gmesh st =
      ({ Mesh.init with
          isMorphTarget := true
          weightsInit := gmesh.weights.take MAX_WEIGHTS }, st) := by
  simp [seedMesh, hfind, hw, Mesh.init]

theorem seedMesh_morph_bound (anims : List GAnimation)
    (faccs : List (List ℚ)) (nodeIndex : Nat) (gmesh : GMesh) (st : LoadState)
    (a : GAnimation) (c : GChannel)
    (hw : gmesh.weights ≠ [])
    (hfind : findWeightsBinding nodeIndex anims = some (a, c)) :
    seedMesh anims faccs nodeIndex gmesh st =
      ({ Mesh.init with
          isMorphTarget := true
          sampler := c.sampler
          input := (a.samplers.getD c.sampler defaultSampler).input
          output := (a.samplers.getD c.sampler defaultSampler).output
          interpolation := parseInterp (a.samplers.getD c.sampler defaultSampler).interpolation
          weightsInit := gmesh.weights.take MAX_WEIGHTS
          weightsTime := faccs.getD (a.samplers.getD c.sampler defaultSampler).input []
          weightsData := faccs.getD (a.samplers.getD c.sampler defaultSampler).output [] },
       { st with
          animationMaxTime := max st.animationMaxTime
            ((faccs.getD (a.samplers.getD c.sampler defaultSampler).input []).getLastD 0) }) := by
  simp [seedMesh, hfind, hw]

theorem seedMesh_static (anims : List GAnimation)
    (faccs : List (List ℚ)) (nodeIndex : Nat) (gmesh : GMesh) (st : LoadState)
    (hw : gmesh.weights = []) :
    seedMesh anims faccs nodeIndex gmesh st = ({ Mesh.init with isMorphTarget := false }, st) := by
  simp [seedMesh, hw, Mesh.init]

/-- C1, part that holds: when a node's local transform is given as separate
translation / rotation / scale, the rotation-and-scale-only local matrix
carries no translation (fourth column `(0,0,0,1)`); and, part that the
source contradicts: when the node supplies an explicit 4×4 matrix, that
matrix is copied VERBATIM into the RS slot, translation included. -/
theorem C1_rs_local_matrix :
    (∀ (tOpt : Option Vec3) (rOpt : Option Quat) (sOpt : Option Vec3),
      ((localMatrices tOpt rOpt sOpt none).2).c3 = ⟨0, 0, 0, 1⟩) ∧
    (∀ (tOpt : Option Vec3) (rOpt : Option Quat) (sOpt : Option Vec3) (m : Mat4),
      (localMatrices tOpt rOpt sOpt (some m)).2 = m) := by
  constructor
  · intro tOpt rOpt sOpt
    rcases rOpt with _ | q <;>
      simp [localMatrices, Mat4.mul, Mat4.mulVec4, mat4Id, quatToMat4, scaleGlm,
        Vec4.mk.injEq]
  · intro tOpt rOpt sOpt m
    simp [localMatrices]

/-- C1 counterexample: for a node supplying an explicit local matrix whose
fourth column holds the translation (1, 2, 3), the matrix used to transform
the node's morph deltas keeps that translation — its fourth column is not
`(0,0,0,1)` — refuting the claim's "including when the node supplies an
explicit 4x4 local matrix". -/
theorem C1_counterexample :
    ((localMatrices none none none
        (some ⟨⟨1, 0, 0, 0⟩, ⟨0, 1, 0, 0⟩, ⟨0, 0, 1, 0⟩, ⟨1, 2, 3, 1⟩⟩)).2).c3 ≠
      ⟨0, 0, 0, 1⟩ := by
  simp only [localMatrices]
  intro h
  have hx : (1 : ℚ) = 0 := congrArg Vec4.x h
  norm_num at hx

theorem u32_eq_of_lt {n : Nat} (h : n < 2 ^ 32) : u32 n = n := Nat.mod_eq_of_lt h

theorem length_filterMap_eq_countP {α β : Type} (f : α → Option β) :
    ∀ l : List α, (l.filterMap f).length = l.countP (fun a => (f a).isSome)
  | [] => rfl
  | x :: xs => by
    cases hx : f x <;>
      simp [List.filterMap_cons, hx, List.countP_cons, length_filterMap_eq_countP f xs]

/-- C2: after packing a morph primitive, `normalOffset` is the number of its
targets declaring a POSITION delta stream, `tangentOffset` adds the number
of targets declaring a NORMAL stream, and `vertexStride` adds on top the
number of targets declaring a TANGENT stream. -/
theorem C2_pack_offsets (nrm : Vec3 → Vec3) (rs : Mat4) (globalscale : ℚ)
    (targets : List MorphTarget) (morphData : List ℚ) (pc : MorphPushConst)
    (hsize : 3 * targets.length < 2 ^ 32) :
    (packMorph nrm rs globalscale targets morphData pc).2.normalOffset =
      targets.countP (fun t => t.position.isSome) ∧
    (packMorph nrm rs globalscale targets morphData pc).2.tangentOffset =
      (packMorph nrm rs globalscale targets morphData pc).2.normalOffset +
        targets.countP (fun t => t.normal.isSome) ∧
    (packMorph nrm rs globalscale targets morphData pc).2.vertexStride =
      (packMorph nrm rs globalscale targets morphData pc).2.tangentOffset +
        targets.countP (fun t => t.tangent.isSome) := by
  have hp : (targets.filterMap (·.position)).length ≤ targets.length :=
    List.length_filterMap_le _ _
  have hn : (targets.filterMap (·.normal)).length ≤ targets.length :=
    List.length_filterMap_le _ _
  have ht : (targets.filterMap (·.tangent)).length ≤ targets.length :=
    List.length_filterMap_le _ _
  have e1 := length_filterMap_eq_countP (fun t : MorphTarget => t.position) targets
  have e2 := length_filterMap_eq_countP (fun t : MorphTarget => t.normal) targets
  have e3 := length_filterMap_eq_countP (fun t : MorphTarget => t.tangent) targets
  simp only [packMorph, u32, List.length_append]
  refine ⟨?_, ?_, ?_⟩
  · rw [Nat.mod_eq_of_lt (by omega)]
    exact e1
  · rw [Nat.mod_eq_of_lt (by omega), Nat.mod_eq_of_lt (by omega)]
    omega
  · rw [Nat.mod_eq_of_lt (by omega), Nat.mod_eq_of_lt (by omega)]
    omega

theorem C2_witness :
    3 * ([(⟨some [], none, some []⟩ : MorphTarget)]).length < 2 ^ 32 ∧
    ((packMorph (fun v => v) mat4Id 1 [⟨some [], none, some []⟩] [] ⟨0, 0, 0, 0, []⟩).2.normalOffset =
        [(⟨some [], none, some []⟩ : MorphTarget)].countP (fun t => t.position.isSome) ∧
      (packMorph (fun v => v) mat4Id 1 [⟨some [], none, some []⟩] [] ⟨0, 0, 0, 0, []⟩).2.tangentOffset =
        (packMorph (fun v => v) mat4Id 1 [⟨some [], none, some []⟩] [] ⟨0, 0, 0, 0, []⟩).2.normalOffset +
          [(⟨some [], none, some []⟩ : MorphTarget)].countP (fun t => t.normal.isSome) ∧
      (packMorph (fun v => v) mat4Id 1 [⟨some [], none, some []⟩] [] ⟨0, 0, 0, 0, []⟩).2.vertexStride =
        (packMorph (fun v => v) mat4Id 1 [⟨some [], none, some []⟩] [] ⟨0, 0, 0, 0, []⟩).2.tangentOffset +
          [(⟨some [], none, some []⟩ : MorphTarget)].countP (fun t => t.tangent.isSome)) :=
  ⟨by decide,
   C2_pack_offsets (fun v => v) mat4Id 1 [⟨some [], none, some []⟩] [] ⟨0, 0, 0, 0, []⟩
     (by decide)⟩

theorem mulPoint_mat4Id (v : Vec3) : mat4Id.mulPoint v = v := by
  cases v with
  | mk x y z => simp [Mat4.mulPoint, Mat4.mulVec4, mat4Id]

theorem scale_one (v : Vec3) : v.scale 1 = v := by
  cases v with
  | mk x y z => simp [Vec3.scale]

theorem flatMap_range_getD {α : Type} (d : α) (f : α → List ℚ) :
    ∀ l : List α,
      (List.range l.length).flatMap (fun i => f (l.getD i d)) = l.flatMap f := by
  intro l
  induction l with
  | nil => rfl
  | cons x xs ih =>
    simp only [List.length_cons, List.range_succ_eq_map, List.flatMap_cons,
      List.flatMap_map, List.getD_cons_zero, Function.comp]
    simp only [List.getD_cons_succ]
    rw [ih]

/-- C6: packing a primitive with exactly one morph target that provides
only POSITION deltas, under the identity local RS matrix and
globalscale = 1, appends to the shared morph pack array exactly the source
delta of every vertex with the Y component negated; and for deltas with
zero Y the packed vector is the source delta unchanged. -/
theorem C6_single_target_roundtrip (nrm : Vec3 → Vec3) (deltas : List Vec3)
    (morphData : List ℚ) (pc : MorphPushConst)
    (hlen : deltas.length < 2 ^ 32) :
    (packMorph nrm mat4Id 1 [⟨some deltas, none, none⟩] morphData pc).1 =
      morphData ++ deltas.flatMap (fun d => [d.x, -d.y, d.z]) ∧
    ∀ d ∈ deltas, d.y = 0 → [d.x, -d.y, d.z] = [d.x, d.y, d.z] := by
  constructor
  · simp only [packMorph, List.filterMap_cons, List.filterMap_nil]
    simp only [List.getLast?_singleton, List.length_singleton, List.append_nil,
      u32_eq_of_lt hlen]
    have hrun : ∀ i : Nat,
        packRun nrm mat4Id 1 (u32 1) i 0 [deltas] =
          [(deltas.getD i Vec3.zero).x, -(deltas.getD i Vec3.zero).y,
            (deltas.getD i Vec3.zero).z] := by
      intro i
      simp [packRun, packVec, u32, mulPoint_mat4Id, scale_one]
    simp only [hrun]
    rw [flatMap_range_getD Vec3.zero (fun d => [d.x, -d.y, d.z]) deltas]
  · intro d _ hy
    simp [hy]

theorem C6_witness :
    ([(⟨1, 2, 3⟩ : Vec3)]).length < 2 ^ 32 ∧
    ((packMorph (fun v => v) mat4Id 1 [⟨some [⟨1, 2, 3⟩], none, none⟩] []
        ⟨0, 0, 0, 0, []⟩).1 =
      [] ++ [(⟨1, 2, 3⟩ : Vec3)].flatMap (fun d => [d.x, -d.y, d.z]) ∧
     ∀ d ∈ [(⟨1, 2, 3⟩ : Vec3)], d.y = 0 → [d.x, -d.y, d.z] = [d.x, d.y, d.z]) :=
  ⟨by decide,
   C6_single_target_roundtrip (fun v => v) [⟨1, 2, 3⟩] [] ⟨0, 0, 0, 0, []⟩ (by decide)⟩

theorem seedMesh_state_meshes (anims : List GAnimation) (faccs : List (List ℚ))
    (nodeIndex : Nat) (gmesh : GMesh) (st : LoadState) :
    (seedMesh anims faccs nodeIndex gmesh st).2.meshesMorph = st.meshesMorph ∧
    (seedMesh anims faccs nodeIndex gmesh st).2.meshesNormal = st.meshesNormal := by
  rcases h : findWeightsBinding nodeIndex anims with _ | ⟨a, c⟩ <;>
    cases hw : gmesh.weights.isEmpty <;> simp [seedMesh, h, hw]

theorem seedMesh_isMorphTarget (anims : List GAnimation) (faccs : List (List ℚ))
    (nodeIndex : Nat) (gmesh : GMesh) (st : LoadState) :
    (seedMesh anims faccs nodeIndex gmesh st).1.isMorphTarget = !gmesh.weights.isEmpty := by
  rcases h : findWeightsBinding nodeIndex anims with _ | ⟨a, c⟩ <;>
    cases hw : gmesh.weights.isEmpty <;> simp [seedMesh, h, hw, Mesh.init]

/-- C8: a mesh-bearing node's mesh is classified `MorphTarget` and appended
to the morph mesh collection iff the source mesh declares a non-empty
weights list; otherwise it is classified `Static` and appended to the
static collection, leaving the other collection untouched. -/
theorem C8_classification (nrm : Vec3 → Vec3) (anims : List GAnimation)
    (faccs : List (List ℚ)) (trs rs : Mat4) (globalscale : ℚ)
    (nodeIndex : Nat) (gmesh : GMesh) (st : LoadState) :
    (gmesh.weights ≠ [] →
      ∃ m : Mesh, m.isMorphTarget = true ∧
        (processMeshNode nrm anims faccs trs rs globalscale nodeIndex gmesh st).meshesMorph =
          st.meshesMorph ++ [m] ∧
        (processMeshNode nrm anims faccs trs rs globalscale nodeIndex gmesh st).meshesNormal =
          st.meshesNormal) ∧
    (gmesh.weights = [] →
      ∃ m : Mesh, m.isMorphTarget = false ∧
        (processMeshNode nrm anims faccs trs rs globalscale nodeIndex gmesh st).meshesNormal =
          st.meshesNormal ++ [m] ∧
        (processMeshNode nrm anims faccs trs rs globalscale nodeIndex gmesh st).meshesMorph =
          st.meshesMorph) := by
  have hseedSt := seedMesh_state_meshes anims faccs nodeIndex gmesh st
  have hseedM := seedMesh_isMorphTarget anims faccs nodeIndex gmesh st
  have hpres := processPrims_preserved nrm trs rs globalscale gmesh.primitives
    (seedMesh anims faccs nodeIndex gmesh st).2 (seedMesh anims faccs nodeIndex gmesh st).1
  constructor
  · intro hw
    have hwB : gmesh.weights.isEmpty = false := by simpa using hw
    refine ⟨(processPrims nrm trs rs globalscale gmesh.primitives
        (seedMesh anims faccs nodeIndex gmesh st).2
        (seedMesh anims faccs nodeIndex gmesh st).1).mesh, ?_, ?_, ?_⟩
    · rw [hpres.2.1.1, hseedM, hwB]; rfl
    · simp [processMeshNode, hwB, hpres.1.1, hseedSt.1]
    · simp [processMeshNode, hwB, hpres.1.2.1, hseedSt.2]
  · intro hw
    have hwB : gmesh.weights.isEmpty = true := by simp [hw]
    refine ⟨(processPrims nrm trs rs globalscale gmesh.primitives
        (seedMesh anims faccs nodeIndex gmesh st).2
        (seedMesh anims faccs nodeIndex gmesh st).1).mesh, ?_, ?_, ?_⟩
    · rw [hpres.2.1.1, hseedM, hwB]; rfl
    · simp [processMeshNode, hwB, hpres.1.2.1, hseedSt.2]
    · simp [processMeshNode, hwB, hpres.1.1, hseedSt.1]

theorem C8_witness :
    (∃ m : Mesh, m.isMorphTarget = true ∧
      (processMeshNode (fun v => v) [] [] mat4Id mat4Id 1 0 ⟨[1], []⟩
          LoadState.empty).meshesMorph = LoadState.empty.meshesMorph ++ [m] ∧
      (processMeshNode (fun v => v) [] [] mat4Id mat4Id 1 0 ⟨[1], []⟩
          LoadState.empty).meshesNormal = LoadState.empty.meshesNormal) ∧
    (∃ m : Mesh, m.isMorphTarget = false ∧
      (processMeshNode (fun v => v) [] [] mat4Id mat4Id 1 0 ⟨[], []⟩
          LoadState.empty).meshesNormal = LoadState.empty.meshesNormal ++ [m] ∧
      (processMeshNode (fun v => v) [] [] mat4Id mat4Id 1 0 ⟨[], []⟩
          LoadState.empty).meshesMorph = LoadState.empty.meshesMorph) :=
  ⟨(C8_classification (fun v => v) [] [] mat4Id mat4Id 1 0 ⟨[1], []⟩ LoadState.empty).1
      (by decide),
   (C8_classification (fun v => v) [] [] mat4Id mat4Id 1 0 ⟨[], []⟩ LoadState.empty).2 rfl⟩

/-- C10: every mesh classified `Static` ends the load with all four morph
push-constant offset fields (`bufferOffset`, `normalOffset`,
`tangentOffset`, `vertexStride`) equal to zero. -/
theorem C10_static_pushconst_zero (nrm : Vec3 → Vec3) (anims : List GAnimation)
    (faccs : List (List ℚ)) (trs rs : Mat4) (globalscale : ℚ)
    (nodeIndex : Nat) (gmesh : GMesh) (st : LoadState)
    (hw : gmesh.weights = []) :
    ∃ m : Mesh,
      (processMeshNode nrm anims faccs trs rs globalscale nodeIndex gmesh st).meshesNormal =
        st.meshesNormal ++ [m] ∧
      m.morphPushConst.bufferOffset = 0 ∧ m.morphPushConst.normalOffset = 0 ∧
      m.morphPushConst.tangentOffset = 0 ∧ m.morphPushConst.vertexStride = 0 := by
  have hwB : gmesh.weights.isEmpty = true := by simp [hw]
  have hseed := seedMesh_static anims faccs nodeIndex gmesh st hw
  have hpc := processPrims_static_pushConst nrm trs rs globalscale gmesh.primitives
    (seedMesh anims faccs nodeIndex gmesh st).2 (seedMesh anims faccs nodeIndex gmesh st).1
    (by rw [hseed])
  have hpres := processPrims_preserved nrm trs rs globalscale gmesh.primitives
    (seedMesh anims faccs nodeIndex gmesh st).2 (seedMesh anims faccs nodeIndex gmesh st).1
  refine ⟨(processPrims nrm trs rs globalscale gmesh.primitives
      (seedMesh anims faccs nodeIndex gmesh st).2
      (seedMesh anims faccs nodeIndex gmesh st).1).mesh, ?_, ?_, ?_, ?_, ?_⟩
  · have hmn := (seedMesh_state_meshes anims faccs nodeIndex gmesh st).2
    simp [processMeshNode, hwB, hpres.1.2.1, hmn]
  all_goals rw [hpc, hseed]
  all_goals rfl

theorem C10_witness :
    (⟨[], []⟩ : GMesh).weights = [] ∧
    ∃ m : Mesh,
      (processMeshNode (fun v => v) [] [] mat4Id mat4Id 1 0 ⟨[], []⟩
          LoadState.empty).meshesNormal = LoadState.empty.meshesNormal ++ [m] ∧
      m.morphPushConst.bufferOffset = 0 ∧ m.morphPushConst.normalOffset = 0 ∧
      m.morphPushConst.tangentOffset = 0 ∧ m.morphPushConst.vertexStride = 0 :=
  ⟨rfl, C10_static_pushconst_zero (fun v => v) [] [] mat4Id mat4Id 1 0 ⟨[], []⟩
    LoadState.empty rfl⟩

/-- C4 (amended): a morph mesh (non-empty initial weight list) whose node
has no animation channel targeting it with path "weights" ends the load
with empty `weightsTime` and `weightsData`, with `weightsInit` equal to the
source's initial weights truncated to MAX_WEIGHTS — and with the
push-constant `weights` array still at its zero-initialized value: the
loader never copies the initial weights into the push constant. -/
theorem C4_unbound_morph_mesh (nrm : Vec3 → Vec3) (anims : List GAnimation)
    (faccs : List (List ℚ)) (trs rs : Mat4) (globalscale : ℚ)
    (nodeIndex : Nat) (gmesh : GMesh) (st : LoadState)
    (hw : gmesh.weights ≠ [])
    (hfind : findWeightsBinding nodeIndex anims = none) :
    ∃ m : Mesh,
      (processMeshNode nrm anims faccs trs rs globalscale nodeIndex gmesh st).meshesMorph =
        st.meshesMorph ++ [m] ∧
      m.weightsTime = [] ∧ m.weightsData = [] ∧
      m.weightsInit = gmesh.weights.take MAX_WEIGHTS ∧
      m.morphPushConst.weights = List.replicate MAX_WEIGHTS 0 := by
  have hwB : gmesh.weights.isEmpty = false := by simpa using hw
  have hseed := seedMesh_morph_unbound anims faccs nodeIndex gmesh st hw hfind
  have hpres := processPrims_preserved nrm trs rs globalscale gmesh.primitives
    (seedMesh anims faccs nodeIndex gmesh st).2 (seedMesh anims faccs nodeIndex gmesh st).1
  refine ⟨(processPrims nrm trs rs globalscale gmesh.primitives
      (seedMesh anims faccs nodeIndex gmesh st).2
      (seedMesh anims faccs nodeIndex gmesh st).1).mesh, ?_, ?_, ?_, ?_, ?_⟩
  · have hmm := (seedMesh_state_meshes anims faccs nodeIndex gmesh st).1
    simp [processMeshNode, hwB, hpres.1.1, hmm]
  · rw [hpres.2.2.2.1]
    simp [hseed, Mesh.init]
  · rw [hpres.2.2.2.2.1]
    simp [hseed, Mesh.init]
  · rw [hpres.2.2.1]
    simp [hseed, Mesh.init]
  · rw [hpres.2.2.2.2.2]
    simp [hseed, Mesh.init]

theorem C4_witness :
    (⟨[1], []⟩ : GMesh).weights ≠ [] ∧
    findWeightsBinding 0 [] = none ∧
    ∃ m : Mesh,
      (processMeshNode (fun v => v) [] [] mat4Id mat4Id 1 0 ⟨[1], []⟩
          LoadState.empty).meshesMorph = LoadState.empty.meshesMorph ++ [m] ∧
      m.weightsTime = [] ∧ m.weightsData = [] ∧
      m.weightsInit = ([1] : List ℚ).take MAX_WEIGHTS ∧
      m.morphPushConst.weights = List.replicate MAX_WEIGHTS 0 :=
  ⟨by decide, rfl,
   C4_unbound_morph_mesh (fun v => v) [] [] mat4Id mat4Id 1 0 ⟨[1], []⟩ LoadState.empty
     (by decide) rfl⟩

/-- C4 counterexample: the claim's Scenario C input — a mesh with initial
weights [1/2, 1/2] and no animation channel at all.  After loading, its
push-constant weights are the zero-initialized array, so they are NOT equal
to the initial weights, refuting the claim's last conjunct (the time/value
sequences are indeed empty, as the amended claim's theorem shows). -/
theorem C4_counterexample :
    ((processMeshNode (fun v => v) [] [] mat4Id mat4Id 1 0 ⟨[1/2, 1/2], []⟩
        LoadState.empty).meshesMorph.getLastD Mesh.init).morphPushConst.weights.take 2 ≠
      [1/2, 1/2] := by
  have h : (processMeshNode (fun v => v) [] [] mat4Id mat4Id 1 0 ⟨[1/2, 1/2], []⟩
      LoadState.empty).meshesMorph =
      [{ Mesh.init with
          isMorphTarget := true
          weightsInit := ([1/2, 1/2] : List ℚ).take MAX_WEIGHTS }] := by
    simp [processMeshNode, seedMesh, findWeightsBinding, processPrims, LoadState.empty,
      Mesh.init]
  rw [h]
  simp only [List.getLastD, Mesh.init, MAX_WEIGHTS, List.replicate, List.take]
  intro hx
  have h0 := congrArg (fun l : List ℚ => l.getD 0 0) hx
  norm_num at h0

/-- The nested first-match scan over animations and channels is exactly
`find?` over the animation-ordered, channel-ordered flattened channel
list. -/
theorem findWeightsBinding_eq_find? (nodeIndex : Nat) :
    ∀ anims : List GAnimation,
      findWeightsBinding nodeIndex anims =
        (anims.flatMap (fun a => a.channels.map (fun c => (a, c)))).find?
          (fun p => p.2.targetNode == nodeIndex && p.2.targetPath == "weights")
  | [] => rfl
  | a :: rest => by
    rw [List.flatMap_cons, List.find?_append,
      List.find?_map (fun c => (a, c)) a.channels]
    rcases h : findChannel nodeIndex a with _ | c
    · rw [findWeightsBinding, h, findWeightsBinding_eq_find? nodeIndex rest]
      have h' : a.channels.find?
          ((fun p : GAnimation × GChannel =>
            p.2.targetNode == nodeIndex && p.2.targetPath == "weights") ∘
            (fun c => (a, c))) = none := h
      rw [h']
      rfl
    · rw [findWeightsBinding, h]
      have h' : a.channels.find?
          ((fun p : GAnimation × GChannel =>
            p.2.targetNode == nodeIndex && p.2.targetPath == "weights") ∘
            (fun c => (a, c))) = some c := h
      rw [h']
      rfl

/-- C7: for a morph mesh, the bound sampler is the one referenced by the
first channel — iterating animations in order and channels in order —
whose target node is the node being visited and whose target path is
"weights"; the mesh's sampler/input/output come from that channel's
sampler record, and the interpolation mode resolves by exact string match:
"STEP" to STEP, "CUBICSPLINE" to CUBICSPLINE, and anything else to
LINEAR. -/
theorem C7_first_binding_wins (nrm : Vec3 → Vec3) (anims : List GAnimation)
    (faccs : List (List ℚ)) (trs rs : Mat4) (globalscale : ℚ)
    (nodeIndex : Nat) (gmesh : GMesh) (st : LoadState)
    (a : GAnimation) (c : GChannel)
    (hw : gmesh.weights ≠ [])
    (hfind : findWeightsBinding nodeIndex anims = some (a, c)) :
    (anims.flatMap (fun an => an.channels.map (fun ch => (an, ch)))).find?
        (fun p => p.2.targetNode == nodeIndex && p.2.targetPath == "weights") =
      some (a, c) ∧
    (∃ m : Mesh,
      (processMeshNode nrm anims faccs trs rs globalscale nodeIndex gmesh st).meshesMorph =
        st.meshesMorph ++ [m] ∧
      m.sampler = c.sampler ∧
      m.input = (a.samplers.getD c.sampler defaultSampler).input ∧
      m.output = (a.samplers.getD c.sampler defaultSampler).output ∧
      m.interpolation =
        parseInterp (a.samplers.getD c.sampler defaultSampler).interpolation) ∧
    (parseInterp "STEP" = .STEP ∧ parseInterp "CUBICSPLINE" = .CUBICSPLINE ∧
      ∀ s : String, s ≠ "STEP" → s ≠ "CUBICSPLINE" → parseInterp s = .LINEAR) := by
  have hwB : gmesh.weights.isEmpty = false := by simpa using hw
  have hseed := seedMesh_morph_bound anims faccs nodeIndex gmesh st a c hw hfind
  have hpres := processPrims_preserved nrm trs rs globalscale gmesh.primitives
    (seedMesh anims faccs nodeIndex gmesh st).2 (seedMesh anims faccs nodeIndex gmesh st).1
  refine ⟨?_, ?_, ?_⟩
  · rw [← findWeightsBinding_eq_find? nodeIndex anims]
    exact hfind
  · refine ⟨(processPrims nrm trs rs globalscale gmesh.primitives
        (seedMesh anims faccs nodeIndex gmesh st).2
        (seedMesh anims faccs nodeIndex gmesh st).1).mesh, ?_, ?_, ?_, ?_, ?_⟩
    · have hmm := (seedMesh_state_meshes anims faccs nodeIndex gmesh st).1
      simp [processMeshNode, hwB, hpres.1.1, hmm]
    · rw [hpres.2.1.2.1]
      simp [hseed]
    · rw [hpres.2.1.2.2.1]
      simp [hseed]
    · rw [hpres.2.1.2.2.2.1]
      simp [hseed]
    · rw [hpres.2.1.2.2.2.2]
      simp [hseed]
  · refine ⟨rfl, rfl, ?_⟩
    intro s h1 h2
    simp [parseInterp, h1, h2]

theorem C7_witness :
    (⟨[1], []⟩ : GMesh).weights ≠ [] ∧
    findWeightsBinding 0 [⟨[⟨0, "weights", 0⟩], [⟨3, 4, "STEP"⟩]⟩] =
      some (⟨[⟨0, "weights", 0⟩], [⟨3, 4, "STEP"⟩]⟩, ⟨0, "weights", 0⟩) ∧
    (([(⟨[⟨0, "weights", 0⟩], [⟨3, 4, "STEP"⟩]⟩ : GAnimation)]).flatMap
        (fun an => an.channels.map (fun ch => (an, ch)))).find?
        (fun p => p.2.targetNode == 0 && p.2.targetPath == "weights") =
      some (⟨[⟨0, "weights", 0⟩], [⟨3, 4, "STEP"⟩]⟩, ⟨0, "weights", 0⟩) ∧
    (∃ m : Mesh,
      (processMeshNode (fun v => v) [⟨[⟨0, "weights", 0⟩], [⟨3, 4, "STEP"⟩]⟩] []
          mat4Id mat4Id 1 0 ⟨[1], []⟩ LoadState.empty).meshesMorph =
        LoadState.empty.meshesMorph ++ [m] ∧
      m.sampler = (⟨0, "weights", 0⟩ : GChannel).sampler ∧
      m.input = ((⟨[⟨0, "weights", 0⟩], [⟨3, 4, "STEP"⟩]⟩ : GAnimation).samplers.getD
        (⟨0, "weights", 0⟩ : GChannel).sampler defaultSampler).input ∧
      m.output = ((⟨[⟨0, "weights", 0⟩], [⟨3, 4, "STEP"⟩]⟩ : GAnimation).samplers.getD
        (⟨0, "weights", 0⟩ : GChannel).sampler defaultSampler).output ∧
      m.interpolation =
        parseInterp ((⟨[⟨0, "weights", 0⟩], [⟨3, 4, "STEP"⟩]⟩ : GAnimation).samplers.getD
          (⟨0, "weights", 0⟩ : GChannel).sampler defaultSampler).interpolation) :=
  have happ := C7_first_binding_wins (fun v => v) [⟨[⟨0, "weights", 0⟩], [⟨3, 4, "STEP"⟩]⟩]
    [] mat4Id mat4Id 1 0 ⟨[1], []⟩ LoadState.empty
    ⟨[⟨0, "weights", 0⟩], [⟨3, 4, "STEP"⟩]⟩ ⟨0, "weights", 0⟩ (by decide) (by decide)
  ⟨by decide, by decide, happ.1, happ.2.1⟩

/-- C5: a primitive whose index accessor declares a component type outside
{uint8 = 5121, uint16 = 5123, uint32 = 5125} makes the loader report an
error and abandon the loop: the result is literally that of processing the
faulting primitive alone (primitives after the fault in the same node are
skipped — a partial scene), the error flag is set, the report is appended
to the error stream, and no indices are emitted for the faulting primitive;
the loader is a total function, so the process does not crash. -/
theorem C5_unsupported_component (nrm : Vec3 → Vec3) (trs rs : Mat4)
    (globalscale : ℚ) (st : LoadState) (mesh : Mesh) (p : GPrimitive)
    (rest : List GPrimitive) (acc : IdxAccessor)
    (hacc : p.indices = some acc)
    (hbad : ¬(acc.componentType = 5125 ∨ acc.componentType = 5123 ∨ acc.componentType = 5121)) :
    processPrims nrm trs rs globalscale (p :: rest) st mesh =
      processPrims nrm trs rs globalscale [p] st mesh ∧
    (processPrims nrm trs rs globalscale (p :: rest) st mesh).err = true ∧
    (processPrims nrm trs rs globalscale (p :: rest) st mesh).st.errors =
      st.errors ++ ["Index component type not supported"] ∧
    (processPrims nrm trs rs globalscale (p :: rest) st mesh).st.indexBufferNormal =
      st.indexBufferNormal ∧
    (processPrims nrm trs rs globalscale (p :: rest) st mesh).st.indexBufferMorph =
      st.indexBufferMorph := by
  cases hM : mesh.isMorphTarget
  · rw [processPrims_cons, processPrims_cons,
      processPrim_static_err nrm trs rs globalscale st mesh p acc hM hacc hbad]
    simp [processPrims_nil]
  · rw [processPrims_cons, processPrims_cons,
      processPrim_morph_err nrm trs rs globalscale st mesh p acc hM hacc hbad]
    simp [processPrims_nil]

theorem C5_witness :
    (⟨some ⟨5126, [0]⟩, [⟨0, 0, 0⟩], none, 0, []⟩ : GPrimitive).indices = some ⟨5126, [0]⟩ ∧
    ¬((5126 : Nat) = 5125 ∨ (5126 : Nat) = 5123 ∨ (5126 : Nat) = 5121) ∧
    (processPrims (fun v => v) mat4Id mat4Id 1
        [⟨some ⟨5126, [0]⟩, [⟨0, 0, 0⟩], none, 0, []⟩,
         ⟨some ⟨5123, [0]⟩, [⟨0, 0, 0⟩], none, 0, []⟩] LoadState.empty Mesh.init =
      processPrims (fun v => v) mat4Id mat4Id 1
        [⟨some ⟨5126, [0]⟩, [⟨0, 0, 0⟩], none, 0, []⟩] LoadState.empty Mesh.init ∧
     (processPrims (fun v => v) mat4Id mat4Id 1
        [⟨some ⟨5126, [0]⟩, [⟨0, 0, 0⟩], none, 0, []⟩,
         ⟨some ⟨5123, [0]⟩, [⟨0, 0, 0⟩], none, 0, []⟩] LoadState.empty Mesh.init).err = true ∧
     (processPrims (fun v => v) mat4Id mat4Id 1
        [⟨some ⟨5126, [0]⟩, [⟨0, 0, 0⟩], none, 0, []⟩,
         ⟨some ⟨5123, [0]⟩, [⟨0, 0, 0⟩], none, 0, []⟩] LoadState.empty
          Mesh.init).st.errors =
       LoadState.empty.errors ++ ["Index component type not supported"] ∧
     (processPrims (fun v => v) mat4Id mat4Id 1
        [⟨some ⟨5126, [0]⟩, [⟨0, 0, 0⟩], none, 0, []⟩,
         ⟨some ⟨5123, [0]⟩, [⟨0, 0, 0⟩], none, 0, []⟩] LoadState.empty
          Mesh.init).st.indexBufferNormal = LoadState.empty.indexBufferNormal ∧
     (processPrims (fun v => v) mat4Id mat4Id 1
        [⟨some ⟨5126, [0]⟩, [⟨0, 0, 0⟩], none, 0, []⟩,
         ⟨some ⟨5123, [0]⟩, [⟨0, 0, 0⟩], none, 0, []⟩] LoadState.empty
          Mesh.init).st.indexBufferMorph = LoadState.empty.indexBufferMorph) :=
  ⟨rfl, by decide,
   C5_unsupported_component (fun v => v) mat4Id mat4Id 1 LoadState.empty Mesh.init
     ⟨some ⟨5126, [0]⟩, [⟨0, 0, 0⟩], none, 0, []⟩
     [⟨some ⟨5123, [0]⟩, [⟨0, 0, 0⟩], none, 0, []⟩] ⟨5126, [0]⟩ rfl (by decide)⟩

theorem primVertices_length (nrm : Vec3 → Vec3) (trs : Mat4) (globalscale : ℚ)
    (prim : GPrimitive) :
    (primVertices nrm trs globalscale prim).length = prim.positions.length := by
  simp [primVertices]

/-- The loop body only appends to the four vertex/index sequences. -/
theorem processPrim_extends (nrm : Vec3 → Vec3) (trs rs : Mat4)
    (globalscale : ℚ) (st : LoadState) (mesh : Mesh) (prim : GPrimitive) :
    (∃ t, (processPrim nrm trs rs globalscale st mesh prim).st.vertexBufferNormal =
      st.vertexBufferNormal ++ t) ∧
    (∃ t, (processPrim nrm trs rs globalscale st mesh prim).st.indexBufferNormal =
      st.indexBufferNormal ++ t) ∧
    (∃ t, (processPrim nrm trs rs globalscale st mesh prim).st.vertexBufferMorph =
      st.vertexBufferMorph ++ t) ∧
    (∃ t, (processPrim nrm trs rs globalscale st mesh prim).st.indexBufferMorph =
      st.indexBufferMorph ++ t) := by
  rcases hp : prim.indices with _ | acc
  · rw [processPrim_none nrm trs rs globalscale st mesh prim hp]
    exact ⟨⟨[], by simp⟩, ⟨[], by simp⟩, ⟨[], by simp⟩, ⟨[], by simp⟩⟩
  · by_cases hsup : acc.componentType = 5125 ∨ acc.componentType = 5123 ∨ acc.componentType = 5121
    · cases hM : mesh.isMorphTarget
      · rw [processPrim_static_ok nrm trs rs globalscale st mesh prim acc hM hp hsup]
        exact ⟨⟨_, rfl⟩, ⟨_, rfl⟩, ⟨[], by simp⟩, ⟨[], by simp⟩⟩
      · rw [processPrim_morph_ok nrm trs rs globalscale st mesh prim acc hM hp hsup]
        exact ⟨⟨[], by simp⟩, ⟨[], by simp⟩, ⟨_, rfl⟩, ⟨_, rfl⟩⟩
    · cases hM : mesh.isMorphTarget
      · rw [processPrim_static_err nrm trs rs globalscale st mesh prim acc hM hp hsup]
        exact ⟨⟨_, rfl⟩, ⟨[], by simp⟩, ⟨[], by simp⟩, ⟨[], by simp⟩⟩
      · rw [processPrim_morph_err nrm trs rs globalscale st mesh prim acc hM hp hsup]
        exact ⟨⟨[], by simp⟩, ⟨[], by simp⟩, ⟨_, rfl⟩, ⟨[], by simp⟩⟩

/-- `processPrim_extends` lifted over the loop. -/
theorem processPrims_extends (nrm : Vec3 → Vec3) (trs rs : Mat4)
    (globalscale : ℚ) (prims : List GPrimitive) : ∀ (st : LoadState) (mesh : Mesh),
    (∃ t, (processPrims nrm trs rs globalscale prims st mesh).st.vertexBufferNormal =
      st.vertexBufferNormal ++ t) ∧
    (∃ t, (processPrims nrm trs rs globalscale prims st mesh).st.indexBufferNormal =
      st.indexBufferNormal ++ t) ∧
    (∃ t, (processPrims nrm trs rs globalscale prims st mesh).st.vertexBufferMorph =
      st.vertexBufferMorph ++ t) ∧
    (∃ t, (processPrims nrm trs rs globalscale prims st mesh).st.indexBufferMorph =
      st.indexBufferMorph ++ t) := by
  induction prims with
  | nil =>
    intro st mesh
    rw [processPrims_nil]
    exact ⟨⟨[], by simp⟩, ⟨[], by simp⟩, ⟨[], by simp⟩, ⟨[], by simp⟩⟩
  | cons p rest ih =>
    intro st mesh
    rw [processPrims_cons]
    have h1 := processPrim_extends nrm trs rs globalscale st mesh p
    split
    · exact h1
    · have h2 := ih (processPrim nrm trs rs globalscale st mesh p).st
        (processPrim nrm trs rs globalscale st mesh p).mesh
      obtain ⟨⟨a1, e1⟩, ⟨a2, e2⟩, ⟨a3, e3⟩, ⟨a4, e4⟩⟩ := h1
      obtain ⟨⟨b1, f1⟩, ⟨b2, f2⟩, ⟨b3, f3⟩, ⟨b4, f4⟩⟩ := h2
      exact ⟨⟨a1 ++ b1, by rw [f1, e1, List.append_assoc]⟩,
             ⟨a2 ++ b2, by rw [f2, e2, List.append_assoc]⟩,
             ⟨a3 ++ b3, by rw [f3, e3, List.append_assoc]⟩,
             ⟨a4 ++ b4, by rw [f4, e4, List.append_assoc]⟩⟩

/-- A static supported primitive emits exactly the raw indices biased by
the static vertex-sequence length recorded at entry (before its own
vertices are appended), once in-range indices make the uint32 wrap-arounds
vanish. -/
theorem processPrim_static_indices (nrm : Vec3 → Vec3) (trs rs : Mat4)
    (globalscale : ℚ) (st : LoadState) (mesh : Mesh) (p : GPrimitive)
    (acc : IdxAccessor) (hM : mesh.isMorphTarget = false)
    (hacc : p.indices = some acc)
    (hsup : acc.componentType = 5125 ∨ acc.componentType = 5123 ∨ acc.componentType = 5121)
    (hv : ∀ v ∈ acc.values, v < p.positions.length)
    (hsmall : st.vertexBufferNormal.length + p.positions.length < 2 ^ 32) :
    (processPrim nrm trs rs globalscale st mesh p).st.indexBufferNormal =
      st.indexBufferNormal ++
        acc.values.map (fun v => v + st.vertexBufferNormal.length) := by
  rw [processPrim_static_ok nrm trs rs globalscale st mesh p acc hM hacc hsup]
  have hlen : st.vertexBufferNormal.length < 2 ^ 32 := by omega
  refine congrArg _ (List.map_congr_left fun v hvmem => ?_)
  rw [u32_eq_of_lt hlen, u32_eq_of_lt (by have := hv v hvmem; omega)]

/-- A morph supported primitive emits exactly the raw indices, unbiased. -/
theorem processPrim_morph_indices (nrm : Vec3 → Vec3) (trs rs : Mat4)
    (globalscale : ℚ) (st : LoadState) (mesh : Mesh) (p : GPrimitive)
    (acc : IdxAccessor) (hM : mesh.isMorphTarget = true)
    (hacc : p.indices = some acc)
    (hsup : acc.componentType = 5125 ∨ acc.componentType = 5123 ∨ acc.componentType = 5121)
    (hv : ∀ v ∈ acc.values, v < p.positions.length)
    (hplen : p.positions.length < 2 ^ 32) :
    (processPrim nrm trs rs globalscale st mesh p).st.indexBufferMorph =
      st.indexBufferMorph ++ acc.values := by
  rw [processPrim_morph_ok nrm trs rs globalscale st mesh p acc hM hacc hsup]
  show st.indexBufferMorph ++ acc.values.map u32 = st.indexBufferMorph ++ acc.values
  refine congrArg _ ?_
  calc acc.values.map u32 = acc.values.map id :=
        List.map_congr_left fun v hvmem => u32_eq_of_lt (by have := hv v hvmem; omega)
    _ = acc.values := List.map_id _

/-- Whole-loop invariant for a static mesh: every index emitted by this
mesh's primitive loop lies inside this mesh's own region of the shared
static vertex sequence — at or after the vertex-sequence length at which
the mesh started, and before the final vertex-sequence length. -/
theorem processPrims_static_range (nrm : Vec3 → Vec3) (trs rs : Mat4)
    (globalscale : ℚ) (prims : List GPrimitive) : ∀ (st : LoadState) (mesh : Mesh),
    mesh.isMorphTarget = false →
    (∀ q ∈ prims, ∀ a, q.indices = some a → ∀ v ∈ a.values, v < q.positions.length) →
    (processPrims nrm trs rs globalscale prims st mesh).st.vertexBufferNormal.length < 2 ^ 32 →
    ∀ i ∈ (processPrims nrm trs rs globalscale prims st mesh).st.indexBufferNormal.drop
        st.indexBufferNormal.length,
      st.vertexBufferNormal.length ≤ i ∧
      i < (processPrims nrm trs rs globalscale prims st mesh).st.vertexBufferNormal.length := by
  induction prims with
  | nil =>
    intro st mesh _ _ _ i hi
    rw [processPrims_nil] at hi
    simp [List.drop_length] at hi
  | cons p rest ih =>
    intro st mesh hM hvalid hfin i hi
    rw [processPrims_cons] at hi hfin ⊢
    rcases hp : p.indices with _ | acc
    · rw [processPrim_none nrm trs rs globalscale st mesh p hp] at hi hfin ⊢
      simp only at hi hfin ⊢
      exact ih st mesh hM (fun q hq => hvalid q (List.mem_cons_of_mem p hq)) hfin i hi
    · by_cases hsup : acc.componentType = 5125 ∨ acc.componentType = 5123 ∨ acc.componentType = 5121
      · have hrerr : (processPrim nrm trs rs globalscale st mesh p).err = false := by
          rw [processPrim_static_ok nrm trs rs globalscale st mesh p acc hM hp hsup]
        have hM1 : (processPrim nrm trs rs globalscale st mesh p).mesh.isMorphTarget = false := by
          rw [(processPrim_preserved nrm trs rs globalscale st mesh p).2.1.1, hM]
        have hvlen : (processPrim nrm trs rs globalscale st mesh p).st.vertexBufferNormal.length =
            st.vertexBufferNormal.length + p.positions.length := by
          rw [processPrim_static_ok nrm trs rs globalscale st mesh p acc hM hp hsup]
          simp [primVertices_length]
        rw [hrerr] at hi hfin ⊢
        simp only [Bool.false_eq_true, if_false] at hi hfin ⊢
        obtain ⟨⟨tv, htv⟩, ⟨ti, hti⟩, _, _⟩ := processPrims_extends nrm trs rs globalscale rest
          (processPrim nrm trs rs globalscale st mesh p).st
          (processPrim nrm trs rs globalscale st mesh p).mesh
        have hmono : (processPrim nrm trs rs globalscale st mesh p).st.vertexBufferNormal.length ≤
            (processPrims nrm trs rs globalscale rest
              (processPrim nrm trs rs globalscale st mesh p).st
              (processPrim nrm trs rs globalscale st mesh p).mesh).st.vertexBufferNormal.length := by
          rw [htv]
          simp
        have hsmall : st.vertexBufferNormal.length + p.positions.length < 2 ^ 32 := by
          rw [← hvlen]
          omega
        have hbatch := processPrim_static_indices nrm trs rs globalscale st mesh p acc hM hp hsup
          (hvalid p (List.mem_cons_self p rest) acc hp) hsmall
        rw [hti, hbatch, List.append_assoc, List.drop_left] at hi
        rcases List.mem_append.1 hi with hib | hit
        · obtain ⟨v, hvmem, rfl⟩ := List.mem_map.1 hib
          have hvlt := hvalid p (List.mem_cons_self p rest) acc hp v hvmem
          exact ⟨Nat.le_add_left _ _, by omega⟩
        · have hres := ih (processPrim nrm trs rs globalscale st mesh p).st
            (processPrim nrm trs rs globalscale st mesh p).mesh hM1
            (fun q hq => hvalid q (List.mem_cons_of_mem p hq)) hfin i
            (by rw [hti, List.drop_left]; exact hit)
          exact ⟨by omega, hres.2⟩
      · rw [processPrim_static_err nrm trs rs globalscale st mesh p acc hM hp hsup] at hi
        simp [List.drop_length] at hi

/-- C3: for a primitive of a static mesh (supported index type, raw indices
within the primitive's declared vertex count) every emitted index is the
raw index plus the static vertex-sequence length recorded before the
primitive's vertices were appended; for a primitive of a morph mesh the
emitted indices are the raw indices unchanged, hence within
[0, vertexCountOfThatPrimitive); and across a whole static mesh's
primitive loop every emitted index stays inside that mesh's own vertex
range, never addressing another mesh's range. -/
theorem C3_index_bias (nrm : Vec3 → Vec3) (trs rs : Mat4) (globalscale : ℚ)
    (st : LoadState) (mesh : Mesh) (p : GPrimitive) (acc : IdxAccessor)
    (prims : List GPrimitive)
    (hacc : p.indices = some acc)
    (hsup : acc.componentType = 5125 ∨ acc.componentType = 5123 ∨ acc.componentType = 5121)
    (hv : ∀ v ∈ acc.values, v < p.positions.length)
    (hsmall : st.vertexBufferNormal.length + p.positions.length < 2 ^ 32)
    (hplen : p.positions.length < 2 ^ 32)
    (hvalidAll : ∀ q ∈ prims, ∀ a, q.indices = some a → ∀ v ∈ a.values, v < q.positions.length)
    (hfin : (processPrims nrm trs rs globalscale prims st mesh).st.vertexBufferNormal.length < 2 ^ 32) :
    (mesh.isMorphTarget = false →
      (processPrim nrm trs rs globalscale st mesh p).st.indexBufferNormal =
        st.indexBufferNormal ++
          acc.values.map (fun v => v + st.vertexBufferNormal.length)) ∧
    (mesh.isMorphTarget = true →
      (processPrim nrm trs rs globalscale st mesh p).st.indexBufferMorph =
        st.indexBufferMorph ++ acc.values ∧
      ∀ v ∈ acc.values, v < p.positions.length) ∧
    (mesh.isMorphTarget = false →
      ∀ i ∈ (processPrims nrm trs rs globalscale prims st mesh).st.indexBufferNormal.drop
          st.indexBufferNormal.length,
        st.vertexBufferNormal.length ≤ i ∧
        i < (processPrims nrm trs rs globalscale prims st mesh).st.vertexBufferNormal.length) :=
  ⟨fun hM =>
    processPrim_static_indices nrm trs rs globalscale st mesh p acc hM hacc hsup hv hsmall,
   fun hM =>
    ⟨processPrim_morph_indices nrm trs rs globalscale st mesh p acc hM hacc hsup hv hplen, hv⟩,
   fun hM =>
    processPrims_static_range nrm trs rs globalscale prims st mesh hM hvalidAll hfin⟩

theorem C3_witness :
    ((⟨some ⟨5123, [0, 1, 2]⟩, [⟨0, 0, 0⟩, ⟨1, 0, 0⟩, ⟨0, 1, 0⟩], none, 0, []⟩ :
        GPrimitive).indices = some ⟨5123, [0, 1, 2]⟩) ∧
    ((Mesh.init.isMorphTarget = false →
      (processPrim (fun v => v) mat4Id mat4Id 1 LoadState.empty Mesh.init
          ⟨some ⟨5123, [0, 1, 2]⟩, [⟨0, 0, 0⟩, ⟨1, 0, 0⟩, ⟨0, 1, 0⟩], none, 0, []⟩).st.indexBufferNormal =
        LoadState.empty.indexBufferNormal ++
          (⟨5123, [0, 1, 2]⟩ : IdxAccessor).values.map
            (fun v => v + LoadState.empty.vertexBufferNormal.length)) ∧
    (Mesh.init.isMorphTarget = true →
      (processPrim (fun v => v) mat4Id mat4Id 1 LoadState.empty Mesh.init
          ⟨some ⟨5123, [0, 1, 2]⟩, [⟨0, 0, 0⟩, ⟨1, 0, 0⟩, ⟨0, 1, 0⟩], none, 0, []⟩).st.indexBufferMorph =
        LoadState.empty.indexBufferMorph ++ (⟨5123, [0, 1, 2]⟩ : IdxAccessor).values ∧
      ∀ v ∈ (⟨5123, [0, 1, 2]⟩ : IdxAccessor).values,
        v < (⟨some ⟨5123, [0, 1, 2]⟩, [⟨0, 0, 0⟩, ⟨1, 0, 0⟩, ⟨0, 1, 0⟩], none, 0, []⟩ :
          GPrimitive).positions.length) ∧
    (Mesh.init.isMorphTarget = false →
      ∀ i ∈ (processPrims (fun v => v) mat4Id mat4Id 1
          [⟨some ⟨5123, [0, 1, 2]⟩, [⟨0, 0, 0⟩, ⟨1, 0, 0⟩, ⟨0, 1, 0⟩], none, 0, []⟩]
          LoadState.empty Mesh.init).st.indexBufferNormal.drop
          LoadState.empty.indexBufferNormal.length,
        LoadState.empty.vertexBufferNormal.length ≤ i ∧
        i < (processPrims (fun v => v) mat4Id mat4Id 1
          [⟨some ⟨5123, [0, 1, 2]⟩, [⟨0, 0, 0⟩, ⟨1, 0, 0⟩, ⟨0, 1, 0⟩], none, 0, []⟩]
          LoadState.empty Mesh.init).st.vertexBufferNormal.length)) :=
  ⟨rfl,
   C3_index_bias (fun v => v) mat4Id mat4Id 1 LoadState.empty Mesh.init
     ⟨some ⟨5123, [0, 1, 2]⟩, [⟨0, 0, 0⟩, ⟨1, 0, 0⟩, ⟨0, 1, 0⟩], none, 0, []⟩
     ⟨5123, [0, 1, 2]⟩
     [⟨some ⟨5123, [0, 1, 2]⟩, [⟨0, 0, 0⟩, ⟨1, 0, 0⟩, ⟨0, 1, 0⟩], none, 0, []⟩]
     rfl (by decide) (by decide) (by decide) (by decide)
     (by
       intro q hq a ha v hvv
       simp only [List.mem_singleton] at hq
       subst hq
       simp only at ha
       rcases Option.some.inj ha with rfl
       have hall : ∀ w ∈ ([0, 1, 2] : List Nat), w < 3 := by decide
       exact hall v hvv)
     (by decide)⟩

theorem processPrims_append (nrm : Vec3 → Vec3) (trs rs : Mat4) (globalscale : ℚ)
    (l₁ l₂ : List GPrimitive) : ∀ (st : LoadState) (mesh : Mesh),
    processPrims nrm trs rs globalscale (l₁ ++ l₂) st mesh =
      if (processPrims nrm trs rs globalscale l₁ st mesh).err then
        processPrims nrm trs rs globalscale l₁ st mesh
      else
        processPrims nrm trs rs globalscale l₂
          (processPrims nrm trs rs globalscale l₁ st mesh).st
          (processPrims nrm trs rs globalscale l₁ st mesh).mesh := by
  induction l₁ with
  | nil => intro st mesh; simp [processPrims_nil]
  | cons p rest ih =>
    intro st mesh
    rw [List.cons_append, processPrims_cons, processPrims_cons]
    cases herr : (processPrim nrm trs rs globalscale st mesh p).err
    · simp only [Bool.false_eq_true, if_false]
      rw [ih]
    · simp [herr]

theorem processPrims_allNone (nrm : Vec3 → Vec3) (trs rs : Mat4) (globalscale : ℚ)
    (prims : List GPrimitive) : ∀ (st : LoadState) (mesh : Mesh),
    (∀ q ∈ prims, q.indices = none) →
    processPrims nrm trs rs globalscale prims st mesh = ⟨st, mesh, false⟩ := by
  induction prims with
  | nil => intro st mesh _; rfl
  | cons p rest ih =>
    intro st mesh h
    rw [processPrims_cons, processPrim_none nrm trs rs globalscale st mesh p
      (h p (List.mem_cons_self p rest))]
    simp only [Bool.false_eq_true, if_false]
    exact ih st mesh (fun q hq => h q (List.mem_cons_of_mem p hq))

theorem u32_mul_sizeofVertex (len : Nat) (h : len * sizeofVertex < 2 ^ 32) :
    u32 (u32 len * sizeofVertex) = len * sizeofVertex := by
  have hlen : len < 2 ^ 32 := by unfold sizeofVertex at h; omega
  rw [u32_eq_of_lt hlen, u32_eq_of_lt h]

/-- C9: `morphVertexOffset` is overwritten once per indexed primitive, so
after a faultless primitive loop it equals `sizeof(Vertex)` times the
vertex-sequence length recorded immediately before the LAST indexed
primitive's vertices were appended (so for a morph mesh with several
indexed primitives the single per-mesh offset identifies only the final
primitive's vertex region), while the morph indices emitted for that last
primitive remain the unbiased raw indices. -/
theorem C9_last_primitive_offset (nrm : Vec3 → Vec3) (trs rs : Mat4)
    (globalscale : ℚ) (st : LoadState) (mesh : Mesh)
    (pre post : List GPrimitive) (p : GPrimitive) (acc : IdxAccessor)
    (hacc : p.indices = some acc)
    (hpost : ∀ q ∈ post, q.indices = none)
    (herr : (processPrims nrm trs rs globalscale (pre ++ p :: post) st mesh).err = false)
    (hsmallM : (processPrims nrm trs rs globalscale pre st mesh).st.vertexBufferMorph.length *
      sizeofVertex < 2 ^ 32)
    (hsmallN : (processPrims nrm trs rs globalscale pre st mesh).st.vertexBufferNormal.length *
      sizeofVertex < 2 ^ 32) :
    (processPrims nrm trs rs globalscale (pre ++ p :: post) st mesh).mesh.morphVertexOffset =
      (if mesh.isMorphTarget then
        (processPrims nrm trs rs globalscale pre st mesh).st.vertexBufferMorph.length
      else
        (processPrims nrm trs rs globalscale pre st mesh).st.vertexBufferNormal.length) *
        sizeofVertex ∧
    (mesh.isMorphTarget = true →
      (∀ v ∈ acc.values, v < p.positions.length) → p.positions.length < 2 ^ 32 →
      (processPrims nrm trs rs globalscale (pre ++ p :: post) st mesh).st.indexBufferMorph =
        (processPrims nrm trs rs globalscale pre st mesh).st.indexBufferMorph ++
          acc.values) := by
  rw [processPrims_append nrm trs rs globalscale pre (p :: post) st mesh] at herr ⊢
  cases hpre : (processPrims nrm trs rs globalscale pre st mesh).err
  case true =>
    rw [hpre, if_pos rfl] at herr
    rw [hpre] at herr
    cases herr
  case false =>
    rw [hpre, if_neg Bool.false_ne_true] at herr
    rw [if_neg Bool.false_ne_true]
    rw [processPrims_cons] at herr ⊢
    have hMp : (processPrims nrm trs rs globalscale pre st mesh).mesh.isMorphTarget =
        mesh.isMorphTarget :=
      (processPrims_preserved nrm trs rs globalscale pre st mesh).2.1.1
    by_cases hsup : acc.componentType = 5125 ∨ acc.componentType = 5123 ∨ acc.componentType = 5121
    · cases hM : mesh.isMorphTarget
      · rw [hM] at hMp
        rw [processPrim_static_ok nrm trs rs globalscale
          (processPrims nrm trs rs globalscale pre st mesh).st
          (processPrims nrm trs rs globalscale pre st mesh).mesh p acc hMp hacc hsup] at herr ⊢
        simp only [Bool.false_eq_true, if_false] at herr ⊢
        rw [processPrims_allNone nrm trs rs globalscale post _ _ hpost]
        constructor
        · show u32 (u32 (processPrims nrm trs rs globalscale pre st
              mesh).st.vertexBufferNormal.length * sizeofVertex) = _
          rw [u32_mul_sizeofVertex _ hsmallN]
        · intro habs
          cases habs
      · rw [hM] at hMp
        rw [processPrim_morph_ok nrm trs rs globalscale
          (processPrims nrm trs rs globalscale pre st mesh).st
          (processPrims nrm trs rs globalscale pre st mesh).mesh p acc hMp hacc hsup] at herr ⊢
        simp only [Bool.false_eq_true, if_false] at herr ⊢
        rw [processPrims_allNone nrm trs rs globalscale post _ _ hpost]
        constructor
        · show u32 (u32 (processPrims nrm trs rs globalscale pre st
              mesh).st.vertexBufferMorph.length * sizeofVertex) = _
          rw [u32_mul_sizeofVertex _ hsmallM]
          simp
        · intro _ hv hplen
          show (processPrims nrm trs rs globalscale pre st mesh).st.indexBufferMorph ++
              acc.values.map u32 = _
          refine congrArg _ ?_
          calc acc.values.map u32 = acc.values.map id :=
                List.map_congr_left fun v hvmem => u32_eq_of_lt (by have := hv v hvmem; omega)
            _ = acc.values := List.map_id _
    · exfalso
      cases hMb : (processPrims nrm trs rs globalscale pre st mesh).mesh.isMorphTarget
      · rw [processPrim_static_err nrm trs rs globalscale
          (processPrims nrm trs rs globalscale pre st mesh).st
          (processPrims nrm trs rs globalscale pre st mesh).mesh p acc hMb hacc hsup] at herr
        simp at herr
      · rw [processPrim_morph_err nrm trs rs globalscale
          (processPrims nrm trs rs globalscale pre st mesh).st
          (processPrims nrm trs rs globalscale pre st mesh).mesh p acc hMb hacc hsup] at herr
        simp at herr

theorem C9_witness :
    ((⟨some ⟨5123, [0]⟩, [⟨0, 0, 0⟩], none, 0, []⟩ : GPrimitive).indices =
      some ⟨5123, [0]⟩) ∧
    ((processPrims (fun v => v) mat4Id mat4Id 1
        ([] ++ (⟨some ⟨5123, [0]⟩, [⟨0, 0, 0⟩], none, 0, []⟩ : GPrimitive) :: [])
        LoadState.empty Mesh.init).mesh.morphVertexOffset =
      (if Mesh.init.isMorphTarget then
        (processPrims (fun v => v) mat4Id mat4Id 1 [] LoadState.empty
          Mesh.init).st.vertexBufferMorph.length
      else
        (processPrims (fun v => v) mat4Id mat4Id 1 [] LoadState.empty
          Mesh.init).st.vertexBufferNormal.length) * sizeofVertex ∧
    (Mesh.init.isMorphTarget = true →
      (∀ v ∈ (⟨5123, [0]⟩ : IdxAccessor).values,
        v < (⟨some ⟨5123, [0]⟩, [⟨0, 0, 0⟩], none, 0, []⟩ : GPrimitive).positions.length) →
      (⟨some ⟨5123, [0]⟩, [⟨0, 0, 0⟩], none, 0, []⟩ : GPrimitive).positions.length < 2 ^ 32 →
      (processPrims (fun v => v) mat4Id mat4Id 1
          ([] ++ (⟨some ⟨5123, [0]⟩, [⟨0, 0, 0⟩], none, 0, []⟩ : GPrimitive) :: [])
          LoadState.empty Mesh.init).st.indexBufferMorph =
        (processPrims (fun v => v) mat4Id mat4Id 1 [] LoadState.empty
          Mesh.init).st.indexBufferMorph ++ (⟨5123, [0]⟩ : IdxAccessor).values)) :=
  ⟨rfl,
   C9_last_primitive_offset (fun v => v) mat4Id mat4Id 1 LoadState.empty Mesh.init
     [] [] ⟨some ⟨5123, [0]⟩, [⟨0, 0, 0⟩], none, 0, []⟩ ⟨5123, [0]⟩
     rfl (by simp) (by decide) (by decide) (by decide)⟩

end VkGltf
